import Mathlib

/-!
Verification of the reader-writer log in rwlog.c (directory Reader-Writer Log).

The development shallowly embeds the monitor and circular-buffer code:

* `rwlog_entry_t` mirrors the log entry struct (seq, tid, ts, msg); the
  timestamp is modelled as a single natural number, the msg payload as a
  string.
* `rwlog_monitor_t` mirrors the monitor struct: the three waiting/active
  counters are C ints (modelled as `Int`), `writer_active` is only ever
  assigned 0 or 1 and is modelled as `Bool`; the circular-buffer fields
  (capacity, head, tail, count, next_seq) are C size_t / uint64_t values
  modelled as `Nat` (the uint64 sequence counter cannot realistically wrap,
  and head/tail/count stay below capacity).
* Functions that read the clock or the thread id (`clock_gettime`,
  `pthread_self`) are modelled by passing the observed value as an explicit
  argument.
* The blocking begin/end operations are modelled twice, at the two
  granularities the claims need: `ApiResult`-returning functions give the
  immediate outcome of a single call (error, blocked on a condition
  variable, or completed), and the labelled transition relation `MStep`
  gives the atomic state changes at each lock acquisition, so that
  reachability of monitor states over arbitrary interleavings can be
  stated.
-/

/-- Log entry struct rwlog_entry_t: sequence number, writing thread id,
timestamp, and the writer-supplied message payload. -/
structure rwlog_entry_t where
  seq : Nat
  tid : Nat
  ts : Nat
  msg : String
deriving Repr, DecidableEq, Inhabited

/-- Helper from rwlog.c line 44: index of a position in the circular
buffer. -/
def buffer_index (pos capacity : Nat) : Nat :=
  pos % capacity

/-- Monitor state struct rwlog_monitor_t: synchronization counters plus the
circular-buffer state.  The shared-memory plumbing (shm_fd, shm_name) has no
logical content and is omitted. -/
structure rwlog_monitor_t where
  readers_active : Int
  readers_waiting : Int
  writers_waiting : Int
  writer_active : Bool
  entries : List rwlog_entry_t
  capacity : Nat
  head : Nat
  tail : Nat
  count : Nat
  next_seq : Nat
deriving Repr, DecidableEq

/-- The monitor state established by rwlog_create lines 91-100: all counters
zero, empty buffer, next_seq = 1.  The mmap-ed entry area is uninitialized
in the source; it is modelled as default entries (its contents are never
read while count = 0). -/
def initMonitor (capacity : Nat) : rwlog_monitor_t :=
  { readers_active := 0
    readers_waiting := 0
    writers_waiting := 0
    writer_active := false
    entries := List.replicate capacity default
    capacity := capacity
    head := 0
    tail := 0
    count := 0
    next_seq := 1 }

/-- Body of rwlog_append (lines 270-291), acting on an existing monitor.
The caller entry is copied into slot head; the monitor-assigned fields are
then stamped: seq from next_seq, tid from pthread_self (passed as selfTid),
ts from clock_gettime (passed as now).  head advances mod capacity; if the
buffer was not full the count grows, otherwise the tail advances, evicting
the oldest entry. -/
def append_store (m : rwlog_monitor_t) (e : rwlog_entry_t) (selfTid now : Nat) :
    rwlog_monitor_t :=
  let write_pos := m.head
  let stored : rwlog_entry_t := { e with seq := m.next_seq, tid := selfTid, ts := now }
  { m with
    entries := m.entries.set write_pos stored
    next_seq := m.next_seq + 1
    head := buffer_index (m.head + 1) m.capacity
    count := if m.count < m.capacity then m.count + 1 else m.count
    tail := if m.count < m.capacity then m.tail else buffer_index (m.tail + 1) m.capacity }

/-- Body of rwlog_snapshot (lines 200-219), acting on an existing monitor:
the list of entries copied into the caller buffer.  min(count, max_entries)
entries are copied, starting at tail, wrapping mod capacity.  The monitor
state itself is not touched. -/
def snapshot_list (m : rwlog_monitor_t) (max_entries : Nat) : List rwlog_entry_t :=
  if max_entries = 0 then []
  else
    let entries_to_copy := min m.count max_entries
    (List.range entries_to_copy).map
      (fun i => m.entries.getD (buffer_index (m.tail + i) m.capacity) default)

/-- A run of appends: each element carries the caller entry together with
the observed thread id and clock value for that call. -/
def appendRun (m : rwlog_monitor_t) : List (rwlog_entry_t × Nat × Nat) → rwlog_monitor_t
  | [] => m
  | a :: rest => appendRun (append_store m a.1 a.2.1 a.2.2) rest

/-- Sequence numbers of the live entries, oldest first: entry at
(tail + i) mod capacity for i = 0 .. count-1. -/
def liveSeqs (m : rwlog_monitor_t) : List Nat :=
  (List.range m.count).map
    (fun i => (m.entries.getD (buffer_index (m.tail + i) m.capacity) default).seq)

/-- The sequence number stamped into the entry stored by the k-th append of
a run from a freshly created store of the given capacity: by definition of
`append_store` it is the next_seq value of the state just before that
append. -/
def seqAssigned (capacity : Nat) (run : List (rwlog_entry_t × Nat × Nat)) (k : Nat) : Nat :=
  (appendRun (initMonitor capacity) (run.take k)).next_seq

/-- Immediate outcome of one call to a begin/end operation: `ret r s` means
the function returned value r with the global monitor pointer equal to s;
`blocked s` means the caller is waiting on a condition variable, the global
state being s at the moment it blocked. -/
inductive ApiResult where
  | ret : Int → Option rwlog_monitor_t → ApiResult
  | blocked : rwlog_monitor_t → ApiResult
deriving Repr, DecidableEq

/-- rwlog_create (lines 48-144).  Failure when an instance already exists or
when capacity = 0; otherwise the initial monitor state.  Environment
failures (malloc, shm_open, ftruncate, mmap, pthread init) also return -1
with the global pointer reset to NULL; they are nondeterministic and are not
modelled, which does not affect the claims proved below. -/
def rwlog_create (m : Option rwlog_monitor_t) (capacity : Nat) :
    Int × Option rwlog_monitor_t :=
  match m with
  | some mon => (-1, some mon)
  | none => if capacity = 0 then (-1, none) else (0, some (initMonitor capacity))

/-- rwlog_destroy (lines 146-172): always returns 0 and leaves the global
pointer NULL (a no-op when already NULL). -/
def rwlog_destroy (_m : Option rwlog_monitor_t) : Int × Option rwlog_monitor_t :=
  (0, none)

/-- rwlog_begin_read (lines 174-193), one call: -1 when the monitor does not
exist; blocks (after counting itself among the waiting readers) when a
writer is active or writers are waiting; otherwise completes, incrementing
readers_active. -/
def rwlog_begin_read : Option rwlog_monitor_t → ApiResult
  | none => .ret (-1) none
  | some m =>
      if m.writer_active = true ∨ m.writers_waiting > 0 then
        .blocked { m with readers_waiting := m.readers_waiting + 1 }
      else
        .ret 0 (some { m with readers_active := m.readers_active + 1 })

/-- rwlog_end_read (lines 222-240), one call: -1 when the monitor does not
exist; otherwise decrements readers_active (the signalling of the writer
condition variable changes no state fields). -/
def rwlog_end_read : Option rwlog_monitor_t → ApiResult
  | none => .ret (-1) none
  | some m => .ret 0 (some { m with readers_active := m.readers_active - 1 })

/-- rwlog_begin_write (lines 242-263), one call: -1 when the monitor does
not exist; blocks (after incrementing writers_waiting) while readers are
active or a writer is active; when the guard is false on entry the function
completes in one lock hold, with writers_waiting back at its old value and
writer_active set. -/
def rwlog_begin_write : Option rwlog_monitor_t → ApiResult
  | none => .ret (-1) none
  | some m =>
      if m.readers_active > 0 ∨ m.writer_active = true then
        .blocked { m with writers_waiting := m.writers_waiting + 1 }
      else
        .ret 0 (some { m with writer_active := true })

/-- rwlog_end_write (lines 296-317), one call: -1 when the monitor does not
exist; otherwise clears writer_active (the signal/broadcast choice changes
no state fields). -/
def rwlog_end_write : Option rwlog_monitor_t → ApiResult
  | none => .ret (-1) none
  | some m => .ret 0 (some { m with writer_active := false })

/-- rwlog_append at the API level (lines 265-294): -1 when the monitor does
not exist or the entry pointer is NULL, leaving the state unchanged;
otherwise 0 together with the updated store. -/
def rwlog_append (m : Option rwlog_monitor_t) (e : Option rwlog_entry_t)
    (selfTid now : Nat) : Int × Option rwlog_monitor_t :=
  match m, e with
  | none, _ => (-1, none)
  | some mon, none => (-1, some mon)
  | some mon, some ent => (0, some (append_store mon ent selfTid now))

/-- rwlog_snapshot at the API level (lines 195-220): the caller buffer is
modelled by its validity (NULL or not) plus the list of entries written into
it.  Returns -1 when the monitor does not exist or the buffer is NULL, else
the number of entries copied; the monitor state passes through unchanged
because the function writes no monitor field. -/
def rwlog_snapshot (m : Option rwlog_monitor_t) (bufValid : Bool)
    (max_entries : Nat) : Int × List rwlog_entry_t × Option rwlog_monitor_t :=
  match m with
  | none => (-1, [], none)
  | some mon =>
      if bufValid = false then (-1, [], some mon)
      else
        let res := snapshot_list mon max_entries
        ((res.length : Int), res, some mon)

/-- Labels for the atomic monitor transitions, one per lock acquisition in
the four bracket operations. -/
inductive MLabel where
  | beginReadBlock
  | beginReadComplete
  | beginWriteBlock
  | beginWriteComplete
  | endRead
  | endWrite
deriving Repr, DecidableEq

/-- Atomic transitions of the monitor state, one constructor per
lock-acquisition outcome in rwlog.c.  A completing beginRead requires the
loop guard of line 183 to be false; a blocking one requires it true and
counts the reader among the waiters (a waiter that wakes, rechecks the
guard, and waits again leaves the state unchanged and needs no step).
beginWrite increments writers_waiting before its guard check (line 250), so
a writer that enters without waiting leaves writers_waiting at its old
value, while a blocked one keeps its increment until it completes.  The
endRead and endWrite steps are taken by a thread inside the corresponding
critical section, per the bracketing discipline the interface requires, so
readers_active is positive at an endRead and writer_active is set at an
endWrite. -/
inductive MStep : rwlog_monitor_t → MLabel → rwlog_monitor_t → Prop where
  | beginRead_enter (m : rwlog_monitor_t)
      (hw : m.writer_active = false) (hq : ¬ m.writers_waiting > 0) :
      MStep m .beginReadComplete
        { m with readers_active := m.readers_active + 1 }
  | beginRead_enterFromWait (m : rwlog_monitor_t)
      (hw : m.writer_active = false) (hq : ¬ m.writers_waiting > 0)
      (hrw : 0 < m.readers_waiting) :
      MStep m .beginReadComplete
        { m with readers_active := m.readers_active + 1,
                 readers_waiting := m.readers_waiting - 1 }
  | beginRead_block (m : rwlog_monitor_t)
      (h : m.writer_active = true ∨ m.writers_waiting > 0) :
      MStep m .beginReadBlock
        { m with readers_waiting := m.readers_waiting + 1 }
  | beginWrite_enter (m : rwlog_monitor_t)
      (hr : ¬ m.readers_active > 0) (hw : m.writer_active = false) :
      MStep m .beginWriteComplete
        { m with writer_active := true }
  | beginWrite_enterFromWait (m : rwlog_monitor_t)
      (hr : ¬ m.readers_active > 0) (hw : m.writer_active = false)
      (hww : 0 < m.writers_waiting) :
      MStep m .beginWriteComplete
        { m with writers_waiting := m.writers_waiting - 1, writer_active := true }
  | beginWrite_block (m : rwlog_monitor_t)
      (h : m.readers_active > 0 ∨ m.writer_active = true) :
      MStep m .beginWriteBlock
        { m with writers_waiting := m.writers_waiting + 1 }
  | endRead_exit (m : rwlog_monitor_t) (h : 0 < m.readers_active) :
      MStep m .endRead
        { m with readers_active := m.readers_active - 1 }
  | endWrite_exit (m : rwlog_monitor_t) (h : m.writer_active = true) :
      MStep m .endWrite
        { m with writer_active := false }

/-- States reachable from a given monitor state by any interleaving of the
atomic transitions. -/
inductive ReachFrom (m0 : rwlog_monitor_t) : rwlog_monitor_t → Prop where
  | refl : ReachFrom m0 m0
  | step {m m' : rwlog_monitor_t} {l : MLabel} :
      ReachFrom m0 m → MStep m l m' → ReachFrom m0 m'

/-- Synchronization invariant: the counters never go negative and an active
writer excludes all readers. -/
def SyncInv (m : rwlog_monitor_t) : Prop :=
  0 ≤ m.readers_active ∧ 0 ≤ m.readers_waiting ∧ 0 ≤ m.writers_waiting ∧
    (m.writer_active = true → m.readers_active = 0)

/-- Circular-buffer invariant of a store with the given capacity: sizes
agree, head sits count slots past tail (mod capacity), and the live entry at
offset i from tail carries sequence number next_seq - count + i. -/
def StoreInv (C : Nat) (m : rwlog_monitor_t) : Prop :=
  0 < C ∧ m.capacity = C ∧ m.entries.length = C ∧ m.count ≤ C ∧ m.tail < C ∧
    m.head = (m.tail + m.count) % C ∧ m.count < m.next_seq ∧
    ∀ i, i < m.count →
      (m.entries.getD ((m.tail + i) % C) default).seq = m.next_seq - m.count + i

/-- A throwaway caller entry used in concrete scenarios. -/
def demoEntry (k : Nat) : rwlog_entry_t :=
  { seq := 0, tid := k, ts := 0, msg := "" }

/-- A concrete run of n appends with distinct caller entries. -/
def demoRun (n : Nat) : List (rwlog_entry_t × Nat × Nat) :=
  (List.range n).map (fun k => (demoEntry k, k, k))

/-- The mathematical value of (head - tail) mod capacity, as an integer
remainder in [0, capacity): the quantity the documented ring-buffer
invariant relates to count. -/
def headTailGap (m : rwlog_monitor_t) : Int :=
  ((m.head : Int) - (m.tail : Int)) % (m.capacity : Int)

/-! ### Helper lemmas -/

theorem getD_set_self {α : Type} (l : List α) (i : Nat) (v d : α)
    (h : i < l.length) : (l.set i v).getD i d = v := by
  simp [List.getD, List.getElem?_set_self', h]

theorem getD_set_ne {α : Type} (l : List α) (i j : Nat) (v d : α)
    (h : i ≠ j) : (l.set i v).getD j d = l.getD j d := by
  simp [List.getD, List.getElem?_set_ne h]

/-- Adding a common offset before reducing mod C is injective on residues
below C. -/
theorem addModInj (t i j C : Nat) (hi : i < C) (hj : j < C)
    (h : (t + i) % C = (t + j) % C) : i = j := by
  have hm : i % C = j % C := Nat.ModEq.add_left_cancel' t h
  rwa [Nat.mod_eq_of_lt hi, Nat.mod_eq_of_lt hj] at hm

/-- The initial monitor state satisfies the synchronization invariant. -/
theorem syncInv_init (C : Nat) : SyncInv (initMonitor C) := by
  simp [SyncInv, initMonitor]

/-- Every atomic monitor transition preserves the synchronization
invariant. -/
theorem syncInv_step (m m' : rwlog_monitor_t) (l : MLabel)
    (hs : MStep m l m') (h : SyncInv m) : SyncInv m' := by
  obtain ⟨h1, h2, h3, h4⟩ := h
  cases hs with
  | beginRead_enter hw hq =>
      exact ⟨by show (0:Int) ≤ m.readers_active + 1; omega, h2, h3,
        fun hwa => absurd hwa (by simp [hw])⟩
  | beginRead_enterFromWait hw hq hrw =>
      exact ⟨by show (0:Int) ≤ m.readers_active + 1; omega,
        by show (0:Int) ≤ m.readers_waiting - 1; omega, h3,
        fun hwa => absurd hwa (by simp [hw])⟩
  | beginRead_block hg =>
      exact ⟨h1, by show (0:Int) ≤ m.readers_waiting + 1; omega, h3, h4⟩
  | beginWrite_enter hr hw =>
      exact ⟨h1, h2, h3, fun _ => by show m.readers_active = 0; omega⟩
  | beginWrite_enterFromWait hr hw hww =>
      exact ⟨h1, h2, by show (0:Int) ≤ m.writers_waiting - 1; omega,
        fun _ => by show m.readers_active = 0; omega⟩
  | beginWrite_block hg =>
      exact ⟨h1, h2, by show (0:Int) ≤ m.writers_waiting + 1; omega, h4⟩
  | endRead_exit hg =>
      exact ⟨by show (0:Int) ≤ m.readers_active - 1; omega, h2, h3,
        fun hwa => by show m.readers_active - 1 = 0; have := h4 hwa; omega⟩
  | endWrite_exit hg =>
      exact ⟨h1, h2, h3, fun hwa => absurd hwa (by simp)⟩

/-- The synchronization invariant holds in every reachable monitor state. -/
theorem syncInv_reach (C : Nat) (m : rwlog_monitor_t)
    (h : ReachFrom (initMonitor C) m) : SyncInv m := by
  induction h with
  | refl => exact syncInv_init C
  | step _ hs ih => exact syncInv_step _ _ _ hs ih

/-! ### Claim theorems: monitor synchronization -/

/-- C1: In every state reachable by any interleaving of beginRead, endRead,
beginWrite and endWrite steps from the initial monitor state, an active
writer implies no active readers, active readers imply no active writer, and
no second writer can complete beginWrite while a writer is active. -/
theorem rwlog_mutual_exclusion (C : Nat) (m : rwlog_monitor_t)
    (h : ReachFrom (initMonitor C) m) :
    (m.writer_active = true → m.readers_active = 0) ∧
    (0 < m.readers_active → m.writer_active = false) ∧
    (∀ m', MStep m MLabel.beginWriteComplete m' → m.writer_active = false) := by
  have hinv := syncInv_reach C m h
  obtain ⟨h1, h2, h3, h4⟩ := hinv
  refine ⟨h4, ?_, ?_⟩
  · intro hra
    cases hw : m.writer_active with
    | false => rfl
    | true => exact absurd (h4 hw) (by omega)
  · intro m' hs
    cases hs <;> assumption

theorem rwlog_mutual_exclusion_witness :
    0 < ({ initMonitor 1 with
            readers_active := (initMonitor 1).readers_active + 1 } :
          rwlog_monitor_t).readers_active ∧
    ({ initMonitor 1 with
        readers_active := (initMonitor 1).readers_active + 1 } :
      rwlog_monitor_t).writer_active = false :=
  ⟨by decide,
    (rwlog_mutual_exclusion 1 _
      (ReachFrom.step ReachFrom.refl
        (MStep.beginRead_enter (initMonitor 1) rfl (by decide)))).2.1
      (by decide)⟩

/-- C6: A beginRead step never completes in a state where a writer is
active or any writer is waiting; the reader only becomes active when no
writer is active and no writer is queued. -/
theorem rwlog_reader_gate (m m' : rwlog_monitor_t)
    (h : MStep m MLabel.beginReadComplete m') :
    ¬ (m.writer_active = true ∨ m.writers_waiting > 0) := by
  intro hc
  cases h <;> rcases hc with h1 | h2 <;> simp_all

theorem rwlog_reader_gate_witness :
    ¬ ((initMonitor 1).writer_active = true ∨ (initMonitor 1).writers_waiting > 0) :=
  rwlog_reader_gate (initMonitor 1) _
    (MStep.beginRead_enter (initMonitor 1) rfl (by decide))

/-! ### Circular-buffer lemmas -/

@[simp] theorem append_store_capacity (m : rwlog_monitor_t) (e : rwlog_entry_t)
    (t n : Nat) : (append_store m e t n).capacity = m.capacity := rfl

@[simp] theorem append_store_entries (m : rwlog_monitor_t) (e : rwlog_entry_t)
    (t n : Nat) : (append_store m e t n).entries
      = m.entries.set m.head { e with seq := m.next_seq, tid := t, ts := n } := rfl

@[simp] theorem append_store_next_seq (m : rwlog_monitor_t) (e : rwlog_entry_t)
    (t n : Nat) : (append_store m e t n).next_seq = m.next_seq + 1 := rfl

@[simp] theorem append_store_head (m : rwlog_monitor_t) (e : rwlog_entry_t)
    (t n : Nat) : (append_store m e t n).head = (m.head + 1) % m.capacity := rfl

@[simp] theorem append_store_count (m : rwlog_monitor_t) (e : rwlog_entry_t)
    (t n : Nat) : (append_store m e t n).count
      = if m.count < m.capacity then m.count + 1 else m.count := rfl

@[simp] theorem append_store_tail (m : rwlog_monitor_t) (e : rwlog_entry_t)
    (t n : Nat) : (append_store m e t n).tail
      = if m.count < m.capacity then m.tail else (m.tail + 1) % m.capacity := rfl

/-- A freshly created store satisfies the buffer invariant. -/
theorem storeInv_init (C : Nat) (hC : 0 < C) : StoreInv C (initMonitor C) := by
  refine ⟨hC, rfl, ?_, ?_, ?_, ?_, ?_, ?_⟩ <;> simp [initMonitor, hC]

/-- One append preserves the buffer invariant. -/
theorem storeInv_append (C : Nat) (m : rwlog_monitor_t) (e : rwlog_entry_t)
    (selfTid now : Nat) (h : StoreInv C m) :
    StoreInv C (append_store m e selfTid now) := by
  obtain ⟨hC, hcap, hlen, hcnt, htl, hhd, hns, hlab⟩ := h
  subst hcap
  by_cases hlt : m.count < m.capacity
  · refine ⟨hC, rfl, ?_, ?_, ?_, ?_, ?_, ?_⟩
    · simp [hlen]
    · simp only [append_store_count, if_pos hlt]
      omega
    · simp only [append_store_tail, if_pos hlt]
      exact htl
    · simp only [append_store_head, append_store_tail, append_store_count, if_pos hlt]
      rw [hhd, Nat.mod_add_mod, Nat.add_assoc]
    · simp only [append_store_count, append_store_next_seq, if_pos hlt]
      omega
    · intro i hi
      simp only [append_store_count, if_pos hlt] at hi
      simp only [append_store_entries, append_store_tail, append_store_next_seq,
        append_store_count, if_pos hlt]
      by_cases hic : i = m.count
      · subst hic
        rw [← hhd, getD_set_self _ _ _ _ (by rw [hlen]; rw [hhd]; exact Nat.mod_lt _ hC)]
        show m.next_seq = m.next_seq + 1 - (m.count + 1) + m.count
        omega
      · have hne : m.head ≠ (m.tail + i) % m.capacity := by
          intro hcontra
          rw [hhd] at hcontra
          exact hic (addModInj m.tail i m.count m.capacity
            (lt_trans (by omega) hlt) hlt hcontra.symm)
        rw [getD_set_ne _ _ _ _ _ hne]
        have := hlab i (by omega)
        rw [this]
        omega
  · have hceq : m.count = m.capacity := by omega
    have hht : m.head = m.tail := by
      rw [hhd, hceq, Nat.add_mod_right, Nat.mod_eq_of_lt htl]
    refine ⟨hC, rfl, ?_, ?_, ?_, ?_, ?_, ?_⟩
    · simp [hlen]
    · simp only [append_store_count, if_neg hlt]
      exact hcnt
    · simp only [append_store_tail, if_neg hlt]
      exact Nat.mod_lt _ hC
    · simp only [append_store_head, append_store_tail, append_store_count, if_neg hlt]
      rw [hht, Nat.mod_add_mod, hceq, Nat.add_mod_right]
    · simp only [append_store_count, append_store_next_seq, if_neg hlt]
      omega
    · intro i hi
      simp only [append_store_count, if_neg hlt] at hi
      simp only [append_store_entries, append_store_tail, append_store_next_seq,
        append_store_count, if_neg hlt]
      rw [Nat.mod_add_mod]
      by_cases hic : i = m.count - 1
      · have h1 : m.tail + 1 + i = m.tail + m.count := by omega
        rw [h1, ← hhd,
          getD_set_self _ _ _ _ (by rw [hlen, hhd]; exact Nat.mod_lt _ hC)]
        show m.next_seq = m.next_seq + 1 - m.count + i
        omega
      · have h1 : m.tail + 1 + i = m.tail + (1 + i) := by omega
        have h1i : 1 + i < m.capacity := by omega
        have hne : m.head ≠ (m.tail + 1 + i) % m.capacity := by
          intro hcontra
          rw [h1, hht] at hcontra
          have h0 : (m.tail + 0) % m.capacity = (m.tail + (1 + i)) % m.capacity := by
            rw [Nat.add_zero, Nat.mod_eq_of_lt htl]
            exact hcontra
          have := addModInj m.tail 0 (1 + i) m.capacity hC h1i h0
          omega
        rw [getD_set_ne _ _ _ _ _ hne, h1]
        have := hlab (1 + i) (by omega)
        rw [this]
        omega

/-- Appending a whole run preserves the buffer invariant. -/
theorem storeInv_appendRun (C : Nat) (m : rwlog_monitor_t)
    (run : List (rwlog_entry_t × Nat × Nat)) (h : StoreInv C m) :
    StoreInv C (appendRun m run) := by
  induction run generalizing m with
  | nil => exact h
  | cons a rest ih => exact ih _ (storeInv_append C m a.1 a.2.1 a.2.2 h)

/-- Every store reached by appends from a fresh store of positive capacity
satisfies the buffer invariant. -/
theorem storeInv_run (C : Nat) (hC : 0 < C)
    (run : List (rwlog_entry_t × Nat × Nat)) :
    StoreInv C (appendRun (initMonitor C) run) :=
  storeInv_appendRun C _ run (storeInv_init C hC)

/-- Each append increments next_seq by one, so after a run it has grown by
the length of the run. -/
theorem next_seq_appendRun (m : rwlog_monitor_t)
    (run : List (rwlog_entry_t × Nat × Nat)) :
    (appendRun m run).next_seq = m.next_seq + run.length := by
  induction run generalizing m with
  | nil => rfl
  | cons a rest ih =>
      show (appendRun (append_store m a.1 a.2.1 a.2.2) rest).next_seq = _
      rw [ih, append_store_next_seq]
      simp
      omega

/-- Under the invariant, the live sequence numbers are the count consecutive
values ending at next_seq - 1, oldest first. -/
theorem liveSeqs_eq (C : Nat) (m : rwlog_monitor_t) (h : StoreInv C m) :
    liveSeqs m = (List.range m.count).map (fun i => m.next_seq - m.count + i) := by
  obtain ⟨hC, hcap, hlen, hcnt, htl, hhd, hns, hlab⟩ := id h
  subst hcap
  unfold liveSeqs buffer_index
  apply List.map_congr_left
  intro i hi
  rw [List.mem_range] at hi
  exact hlab i hi

/-- The snapshot always copies min(count, max_entries) entries. -/
theorem snapshot_length (m : rwlog_monitor_t) (max_entries : Nat) :
    (snapshot_list m max_entries).length = min m.count max_entries := by
  unfold snapshot_list
  by_cases hmax : max_entries = 0 <;> simp [hmax]

/-- Under the invariant, the sequence numbers of a snapshot are the first
min(count, max_entries) live sequence numbers. -/
theorem snapshot_map_seq (C : Nat) (m : rwlog_monitor_t) (h : StoreInv C m)
    (max_entries : Nat) :
    (snapshot_list m max_entries).map (fun e => e.seq)
      = (List.range (min m.count max_entries)).map
          (fun i => m.next_seq - m.count + i) := by
  obtain ⟨hC, hcap, hlen, hcnt, htl, hhd, hns, hlab⟩ := id h
  subst hcap
  by_cases hmax : max_entries = 0
  · simp [snapshot_list, hmax]
  · simp only [snapshot_list, if_neg hmax, List.map_map]
    apply List.map_congr_left
    intro i hi
    rw [List.mem_range] at hi
    show (m.entries.getD (buffer_index (m.tail + i) m.capacity) default).seq = _
    unfold buffer_index
    exact hlab i (lt_of_lt_of_le hi (Nat.min_le_left _ _))

/-- Under the invariant, a snapshot returns exactly the first max_entries
live entries (oldest first, starting at tail). -/
theorem snapshot_take (C : Nat) (m : rwlog_monitor_t) (h : StoreInv C m)
    (max_entries : Nat) :
    (snapshot_list m max_entries).map (fun e => e.seq)
      = (liveSeqs m).take max_entries := by
  rw [snapshot_map_seq C m h max_entries, liveSeqs_eq C m h, ← List.map_take,
    List.take_range, Nat.min_comm]

/-- Under the invariant, sequence numbers within a snapshot are strictly
increasing by index. -/
theorem snapshot_pairwise (C : Nat) (m : rwlog_monitor_t) (h : StoreInv C m)
    (max_entries : Nat) :
    ((snapshot_list m max_entries).map (fun e => e.seq)).Pairwise (· < ·) := by
  rw [snapshot_map_seq C m h max_entries]
  refine List.Pairwise.map _ ?_ (List.pairwise_lt_range _)
  intro a b hab
  omega

/-- Appending to a non-full store keeps all live entries and adds the new
sequence number at the young end. -/
theorem liveSeqs_append_nonfull (C : Nat) (m : rwlog_monitor_t)
    (h : StoreInv C m) (hnf : m.count < C) (e : rwlog_entry_t) (tid ts : Nat) :
    liveSeqs (append_store m e tid ts) = liveSeqs m ++ [m.next_seq] := by
  obtain ⟨hC, hcap, hlen, hcnt, htl, hhd, hns, hlab⟩ := id h
  have hlt : m.count < m.capacity := by omega
  rw [liveSeqs_eq C _ (storeInv_append C m e tid ts h), liveSeqs_eq C m h]
  simp only [append_store_count, append_store_next_seq, if_pos hlt]
  rw [List.range_succ, List.map_append]
  congr 1
  · apply List.map_congr_left
    intro a ha
    omega
  · simp
    omega

/-- Appending to a full store drops exactly the oldest live sequence number
and adds the new one at the young end. -/
theorem liveSeqs_append_full (C : Nat) (m : rwlog_monitor_t)
    (h : StoreInv C m) (hfull : m.count = C) (e : rwlog_entry_t) (tid ts : Nat) :
    liveSeqs (append_store m e tid ts) = (liveSeqs m).drop 1 ++ [m.next_seq] := by
  obtain ⟨hC, hcap, hlen, hcnt, htl, hhd, hns, hlab⟩ := id h
  have hlt : ¬ m.count < m.capacity := by omega
  rw [liveSeqs_eq C _ (storeInv_append C m e tid ts h), liveSeqs_eq C m h]
  simp only [append_store_count, append_store_next_seq, if_neg hlt]
  obtain ⟨k, hk⟩ : ∃ k, m.count = k + 1 := ⟨m.count - 1, by omega⟩
  rw [hk] at hns ⊢
  conv_lhs => rw [List.range_succ]
  conv_rhs => rw [List.range_succ_eq_map]
  simp only [List.map_append, List.map_cons, List.map_nil, List.map_map,
    List.drop_one, List.tail_cons]
  congr 1
  · apply List.map_congr_left
    intro a ha
    show m.next_seq + 1 - (k + 1) + a = m.next_seq - (k + 1) + (a + 1)
    omega
  · simp
    omega

/-! ### Claim theorems: circular buffer -/

/-- C3: For every finite sequence of appends on a store created with
capacity C > 0, count stays at most C; an append on a non-full store
increments count, leaves tail unchanged and keeps every live entry while
adding the new sequence number; an append on a full store keeps count at C,
advances tail by one mod C and evicts exactly the oldest live entry.
Concretely, with capacity 3, appending four entries leaves live sequence
numbers 2, 3, 4 with sequence 1 evicted. -/
theorem rwlog_capacity_eviction (C : Nat) (hC : 0 < C)
    (run : List (rwlog_entry_t × Nat × Nat)) (e : rwlog_entry_t) (tid ts : Nat)
    (s s' : rwlog_monitor_t)
    (hs : s = appendRun (initMonitor C) run)
    (hs' : s' = append_store s e tid ts) :
    s.count ≤ C ∧
    (s.count < C →
      s'.count = s.count + 1 ∧ s'.tail = s.tail ∧
      liveSeqs s' = liveSeqs s ++ [s.next_seq]) ∧
    (s.count = C →
      s'.count = C ∧ s'.tail = (s.tail + 1) % C ∧
      liveSeqs s' = (liveSeqs s).drop 1 ++ [s.next_seq]) ∧
    liveSeqs (appendRun (initMonitor 3) (demoRun 4)) = [2, 3, 4] ∧
    1 ∉ liveSeqs (appendRun (initMonitor 3) (demoRun 4)) := by
  subst hs'
  subst hs
  have hinv := storeInv_run C hC run
  obtain ⟨hC2, hcap, hlen, hcnt, htl, hhd, hns, hlab⟩ := id hinv
  refine ⟨hcnt, ?_, ?_, by decide, by decide⟩
  · intro hlt
    have hltc : (appendRun (initMonitor C) run).count
        < (appendRun (initMonitor C) run).capacity := by omega
    refine ⟨?_, ?_, liveSeqs_append_nonfull C _ hinv hlt e tid ts⟩
    · simp only [append_store_count, if_pos hltc]
    · simp only [append_store_tail, if_pos hltc]
  · intro hfull
    have hltc : ¬ (appendRun (initMonitor C) run).count
        < (appendRun (initMonitor C) run).capacity := by omega
    refine ⟨?_, ?_, liveSeqs_append_full C _ hinv hfull e tid ts⟩
    · simp only [append_store_count, if_neg hltc]
      exact hfull
    · simp only [append_store_tail, if_neg hltc]
      rw [hcap]

theorem rwlog_capacity_eviction_witness :
    (append_store (appendRun (initMonitor 3) (demoRun 2)) (demoEntry 9) 0 0).count
        = (appendRun (initMonitor 3) (demoRun 2)).count + 1 ∧
    (append_store (appendRun (initMonitor 3) (demoRun 2)) (demoEntry 9) 0 0).tail
        = (appendRun (initMonitor 3) (demoRun 2)).tail ∧
    liveSeqs (append_store (appendRun (initMonitor 3) (demoRun 2)) (demoEntry 9) 0 0)
        = liveSeqs (appendRun (initMonitor 3) (demoRun 2))
            ++ [(appendRun (initMonitor 3) (demoRun 2)).next_seq] :=
  (rwlog_capacity_eviction 3 (by decide) (demoRun 2) (demoEntry 9) 0 0
      (appendRun (initMonitor 3) (demoRun 2))
      (append_store (appendRun (initMonitor 3) (demoRun 2)) (demoEntry 9) 0 0)
      rfl rfl).2.1 (by decide)

/-- C4: On every store reached by appends from creation, snapshot copies
exactly min(count, maxEntries) entries, namely the oldest live entries
starting at tail in strictly increasing sequence order, returns that count,
and leaves the store state unchanged.  In particular, snapshot(2) on a
buffer holding 5 live entries with sequences 10..14 returns exactly the
entries with sequences 10 and 11, in that order. -/
theorem rwlog_snapshot_spec (C : Nat) (hC : 0 < C)
    (run : List (rwlog_entry_t × Nat × Nat)) (max_entries : Nat)
    (s : rwlog_monitor_t) (hs : s = appendRun (initMonitor C) run) :
    (snapshot_list s max_entries).length = min s.count max_entries ∧
    (snapshot_list s max_entries).map (fun e => e.seq)
        = (liveSeqs s).take max_entries ∧
    ((snapshot_list s max_entries).map (fun e => e.seq)).Pairwise (· < ·) ∧
    rwlog_snapshot (some s) true max_entries
        = ((min s.count max_entries : Int), snapshot_list s max_entries, some s) ∧
    (snapshot_list (appendRun (initMonitor 5) (demoRun 14)) 2).map (fun e => e.seq)
        = [10, 11] := by
  subst hs
  have hinv := storeInv_run C hC run
  refine ⟨snapshot_length _ _, snapshot_take C _ hinv _,
    snapshot_pairwise C _ hinv _, ?_, by decide⟩
  simp [rwlog_snapshot, snapshot_length]

theorem rwlog_snapshot_spec_witness :
    (snapshot_list (appendRun (initMonitor 5) (demoRun 14)) 2).map (fun e => e.seq)
      = (liveSeqs (appendRun (initMonitor 5) (demoRun 14))).take 2 :=
  (rwlog_snapshot_spec 5 (by decide) (demoRun 14) 2
    (appendRun (initMonitor 5) (demoRun 14)) rfl).2.1

/-- C5: The sequence counter starts at 1 at creation; the i-th append of a
run is assigned sequence 1 + i, so an append performed earlier always
receives a strictly smaller sequence number than a later one; and within
every snapshot the sequence numbers are strictly increasing by index. -/
theorem rwlog_sequence_monotonic (C : Nat) (hC : 0 < C)
    (run : List (rwlog_entry_t × Nat × Nat)) (i j : Nat)
    (hij : i < j) (hj : j < run.length) (max_entries : Nat) :
    (initMonitor C).next_seq = 1 ∧
    seqAssigned C run i = 1 + i ∧
    seqAssigned C run j = 1 + j ∧
    seqAssigned C run i < seqAssigned C run j ∧
    ((snapshot_list (appendRun (initMonitor C) run) max_entries).map
        (fun e => e.seq)).Pairwise (· < ·) := by
  have hgen : ∀ k, k ≤ run.length → seqAssigned C run k = 1 + k := by
    intro k hk
    unfold seqAssigned
    rw [next_seq_appendRun, List.length_take, Nat.min_eq_left hk]
    rfl
  have hi' := hgen i (by omega)
  have hj' := hgen j (by omega)
  exact ⟨rfl, hi', hj', by omega,
    snapshot_pairwise C _ (storeInv_run C hC run) max_entries⟩

theorem rwlog_sequence_monotonic_witness :
    (initMonitor 3).next_seq = 1 ∧
    seqAssigned 3 (demoRun 4) 1 = 1 + 1 ∧
    seqAssigned 3 (demoRun 4) 3 = 1 + 3 ∧
    seqAssigned 3 (demoRun 4) 1 < seqAssigned 3 (demoRun 4) 3 ∧
    ((snapshot_list (appendRun (initMonitor 3) (demoRun 4)) 2).map
        (fun e => e.seq)).Pairwise (· < ·) :=
  rwlog_sequence_monotonic 3 (by decide) (demoRun 4) 1 3 (by decide) (by decide) 2

/-! ### Claim theorems: return values, frame, gap formula, guards -/

/-- C2 counterexample: on a freshly created store of capacity 1, the first
append returns 0 while the sequence number assigned to the stored entry is
1, so the append return value is not the assigned sequence number. -/
theorem rwlog_append_return_cex :
    (rwlog_append (some (initMonitor 1)) (some (demoEntry 0)) 7 5).1
      ≠ (((append_store (initMonitor 1) (demoEntry 0) 7 5).entries.getD 0
            default).seq : Int) := by decide

/-- C2 amended: on a created monitor with a non-null entry, append returns
0 (the success code), not the assigned sequence number; the assigned
sequence number — the value of nextSequence at the time of the call — is
stamped into the stored entry, and nextSequence then increments. -/
theorem rwlog_append_returns_success (mon : rwlog_monitor_t)
    (e : rwlog_entry_t) (tid ts : Nat) (hh : mon.head < mon.entries.length) :
    rwlog_append (some mon) (some e) tid ts
        = (0, some (append_store mon e tid ts)) ∧
    ((append_store mon e tid ts).entries.getD mon.head default).seq
        = mon.next_seq ∧
    (append_store mon e tid ts).next_seq = mon.next_seq + 1 := by
  refine ⟨rfl, ?_, rfl⟩
  rw [append_store_entries, getD_set_self _ _ _ _ hh]

theorem rwlog_append_returns_success_witness :
    (initMonitor 1).head < (initMonitor 1).entries.length ∧
    (rwlog_append (some (initMonitor 1)) (some (demoEntry 0)) 7 5
        = (0, some (append_store (initMonitor 1) (demoEntry 0) 7 5)) ∧
      ((append_store (initMonitor 1) (demoEntry 0) 7 5).entries.getD
          (initMonitor 1).head default).seq = (initMonitor 1).next_seq ∧
      (append_store (initMonitor 1) (demoEntry 0) 7 5).next_seq
          = (initMonitor 1).next_seq + 1) :=
  ⟨by decide,
    rwlog_append_returns_success (initMonitor 1) (demoEntry 0) 7 5 (by decide)⟩

/-- C7 counterexample: appending a caller entry whose tid field is 42 from
a thread with id 7 stores a copy whose tid is 7, so the stored copy is not
the caller entry with only the sequence and timestamp fields changed: the
producer-id field is overwritten as well. -/
theorem rwlog_append_frame_cex :
    ¬ ((append_store (initMonitor 1) (demoEntry 42) 7 5).entries.getD 0 default
        = { demoEntry 42 with
            seq := ((append_store (initMonitor 1) (demoEntry 42) 7 5).entries.getD
                0 default).seq
            ts := ((append_store (initMonitor 1) (demoEntry 42) 7 5).entries.getD
                0 default).ts }) := by decide

/-- C7 amended: the stored copy of an appended entry differs from the
caller entry exactly in the three monitor-assigned fields — sequence
(nextSequence at call time), thread id (the id of the calling thread,
overwriting whatever the caller set) and timestamp; the caller-supplied
payload is stored unchanged. -/
theorem rwlog_append_frame (mon : rwlog_monitor_t) (e : rwlog_entry_t)
    (selfTid now : Nat) (hh : mon.head < mon.entries.length) :
    (append_store mon e selfTid now).entries.getD mon.head default
      = { seq := mon.next_seq, tid := selfTid, ts := now, msg := e.msg } := by
  rw [append_store_entries, getD_set_self _ _ _ _ hh]

theorem rwlog_append_frame_witness :
    (initMonitor 1).head < (initMonitor 1).entries.length ∧
    (append_store (initMonitor 1) (demoEntry 42) 7 5).entries.getD
        (initMonitor 1).head default
      = { seq := (initMonitor 1).next_seq, tid := 7, ts := 5,
          msg := (demoEntry 42).msg } :=
  ⟨by decide, rwlog_append_frame (initMonitor 1) (demoEntry 42) 7 5 (by decide)⟩

/-- Under the buffer invariant, count equals the head-tail gap while the
buffer is neither empty nor full, and head equals tail when it is full. -/
theorem storeInv_gap (C : Nat) (m : rwlog_monitor_t) (h : StoreInv C m) :
    (0 < m.count → m.count < C → (m.count : Int) = headTailGap m) ∧
    (m.count = C → m.head = m.tail ∧ headTailGap m = 0) := by
  obtain ⟨hC, hcap, hlen, hcnt, htl, hhd, hns, hlab⟩ := h
  constructor
  · intro hpos hlt
    unfold headTailGap
    rw [hcap, hhd]
    by_cases hsum : m.tail + m.count < C
    · rw [Nat.mod_eq_of_lt hsum, Nat.cast_add, add_sub_cancel_left,
        Int.emod_eq_of_lt (Int.natCast_nonneg _) (by exact_mod_cast hlt)]
    · have h1 : (m.tail + m.count) % C = m.tail + m.count - C := by
        rw [Nat.mod_eq_sub_mod (by omega), Nat.mod_eq_of_lt (by omega)]
      have h2 : ((m.tail + m.count - C : Nat) : Int)
          = (m.tail : Int) + (m.count : Int) - (C : Int) := by
        rw [Nat.cast_sub (by omega), Nat.cast_add]
      have h3 : (m.tail : Int) + (m.count : Int) - (C : Int) - (m.tail : Int)
          = (m.count : Int) - (C : Int) := by ring
      rw [h1, h2, h3, Int.sub_emod, Int.emod_self, sub_zero,
        Int.emod_emod_of_dvd _ dvd_rfl,
        Int.emod_eq_of_lt (Int.natCast_nonneg _) (by exact_mod_cast hlt)]
  · intro hfull
    have hht : m.head = m.tail := by
      rw [hhd, hfull, ← hcap, Nat.add_mod_right, Nat.mod_eq_of_lt]
      rwa [hcap]
    refine ⟨hht, ?_⟩
    unfold headTailGap
    rw [hht, sub_self, Int.zero_emod]

/-- C8 counterexample: with capacity 3 and three appends the buffer is full
with count = 3 > 0, but head = tail, so (head - tail) mod capacity = 0 and
the documented formula count = (head - tail) mod capacity fails in the
full-buffer state. -/
theorem rwlog_count_gap_cex :
    0 < (appendRun (initMonitor 3) (demoRun 3)).count ∧
    ¬ (((appendRun (initMonitor 3) (demoRun 3)).count : Int)
        = headTailGap (appendRun (initMonitor 3) (demoRun 3))) := by decide

/-- C8 amended: in every store state reachable by appends from creation
with capacity C > 0, count = (head - tail) mod capacity holds whenever the
buffer is non-empty and not full; in the full state count = capacity the
formula instead reads head = tail, so (head - tail) mod capacity = 0. -/
theorem rwlog_count_gap (C : Nat) (hC : 0 < C)
    (run : List (rwlog_entry_t × Nat × Nat)) (s : rwlog_monitor_t)
    (hs : s = appendRun (initMonitor C) run) :
    (0 < s.count → s.count < C → (s.count : Int) = headTailGap s) ∧
    (s.count = C → s.head = s.tail ∧ headTailGap s = 0) := by
  subst hs
  exact storeInv_gap C _ (storeInv_run C hC run)

theorem rwlog_count_gap_witness :
    ((appendRun (initMonitor 3) (demoRun 2)).count : Int)
      = headTailGap (appendRun (initMonitor 3) (demoRun 2)) :=
  (rwlog_count_gap 3 (by decide) (demoRun 2)
    (appendRun (initMonitor 3) (demoRun 2)) rfl).1 (by decide) (by decide)

/-- C9: Every bracketed operation invoked while the monitor does not exist
(before create or after destroy) returns -1 to the caller and leaves the
global state unchanged; append and snapshot also return -1 when handed a
null entry or buffer argument, again without touching the state; and
destroy always leaves the monitor non-existing, so any bracketed call after
it hits these guards. -/
theorem rwlog_misuse_errors :
    rwlog_begin_read none = ApiResult.ret (-1) none ∧
    rwlog_end_read none = ApiResult.ret (-1) none ∧
    rwlog_begin_write none = ApiResult.ret (-1) none ∧
    rwlog_end_write none = ApiResult.ret (-1) none ∧
    (∀ (e : Option rwlog_entry_t) (tid ts : Nat),
      rwlog_append none e tid ts = (-1, none)) ∧
    (∀ (mon : rwlog_monitor_t) (tid ts : Nat),
      rwlog_append (some mon) none tid ts = (-1, some mon)) ∧
    (∀ (b : Bool) (max_entries : Nat),
      rwlog_snapshot none b max_entries = (-1, [], none)) ∧
    (∀ (mon : rwlog_monitor_t) (max_entries : Nat),
      rwlog_snapshot (some mon) false max_entries = (-1, [], some mon)) ∧
    (∀ (m : Option rwlog_monitor_t), rwlog_destroy m = (0, none)) := by
  refine ⟨rfl, rfl, rfl, rfl, ?_, ?_, ?_, ?_, ?_⟩ <;> intros <;> rfl

/-- C10: Calling create while an instance exists returns -1 and hands back
the existing instance unchanged; create with capacity 0 returns -1; and
whenever create returns success the resulting instance exists and has
positive capacity. -/
theorem rwlog_create_guards :
    (∀ (mon : rwlog_monitor_t) (cap : Nat),
      rwlog_create (some mon) cap = (-1, some mon)) ∧
    rwlog_create none 0 = (-1, none) ∧
    (∀ (cap : Nat) (r : Int) (m' : Option rwlog_monitor_t),
      rwlog_create none cap = (r, m') → r = 0 →
        ∃ mon, m' = some mon ∧ 0 < mon.capacity) := by
  refine ⟨fun mon cap => rfl, rfl, ?_⟩
  intro cap r m' h hr
  by_cases hcap : cap = 0
  · subst hcap
    have h1 : (-1 : Int) = r := congrArg Prod.fst h
    omega
  · simp only [rwlog_create, if_neg hcap] at h
    refine ⟨initMonitor cap, (congrArg Prod.snd h).symm, ?_⟩
    show 0 < cap
    omega

theorem rwlog_create_guards_witness :
    rwlog_create none 2 = (0, some (initMonitor 2)) ∧
    ∃ mon, (some (initMonitor 2) : Option rwlog_monitor_t) = some mon
      ∧ 0 < mon.capacity :=
  ⟨rfl, rwlog_create_guards.2.2 2 0 (some (initMonitor 2)) rfl rfl⟩
